import Mathlib

/-!
Verification of the conversation-manager server (src/build/server.js).

The embedding below models, directly from the source: the in-memory
`conversationStates` map (a JS `Map`, here an association list in insertion
order), the lazy-creating `getConversationState` helper, identity resolution
as performed by the resource read callback and by the tool handlers, the
`conversationAspect` resource read callback, and the four tool handlers
(`set_conversation_goal`, `summarize_conversation`, `suggest_next_step`,
`record_key_point`). Phases are stored as raw strings, exactly as the JS code
stores string literals. JS `undefined` identities (possible on the resource
path when the template hands the callback an empty array) are modelled by
`none` in the key type.
-/

namespace ConvMgr

/-- Map keys: JS string identities, or the JS value `undefined` (`none`),
which the resource path can produce from an empty-array parameter. -/
abbrev Key := Option String

/-- One conversation state, as stored in the `conversationStates` map. -/
structure ConvState where
  id : Key
  goal : Option String
  summary : Option String
  keyPoints : List String
  phase : String
deriving Repr, DecidableEq

/-- The in-memory store: a JS `Map` in insertion order (new entries at the
end), modelled as an association list. -/
abbrev Store := List (Key × ConvState)

/-- First-match lookup (JS `Map.get`). -/
def lookupState (k : Key) : Store → Option ConvState
  | [] => none
  | p :: rest => if p.1 = k then some p.2 else lookupState k rest

/-- The state a fresh conversation is initialized to. -/
def initState (k : Key) : ConvState :=
  { id := k, goal := none, summary := none, keyPoints := [], phase := "idle" }

/-- `getConversationState`: look up the entry, lazily creating and inserting
the default state on a miss. Returns the state with the resulting store. -/
def getConversationState (k : Key) (st : Store) : ConvState × Store :=
  match lookupState k st with
  | some s => (s, st)
  | none => (initState k, st ++ [(k, initState k)])

/-- In-place mutation of the object stored for key `k` (JS mutates the stored
object, so the entry keeps its key and position). -/
def updateState (k : Key) (s : ConvState) : Store → Store
  | [] => []
  | p :: rest => (if p.1 = k then (k, s) else p) :: updateState k s rest

/-- What the resource template can hand the read callback for the
`conversationId` variable: a single string, an array of strings, or nothing. -/
inductive ConvIdParam where
  | absent
  | single (s : String)
  | listOf (l : List String)
deriving Repr, DecidableEq

/-- Identity resolution in the resource read callback: the explicit id when it
is a string; the first element when it arrived as an array (JS `arr[0]`, which
is `undefined` on the empty array); else the session id when it is a string;
else the literal `"default"`. -/
def resolveId : ConvIdParam → Option String → Key
  | .single s, _ => some s
  | .listOf l, _ => l.head?
  | .absent, some sid => some sid
  | .absent, none => some "default"

/-- Identity resolution in the tool handlers:
`inputConvId ?? extra.sessionId ?? "default"`. -/
def resolveToolId (inputConvId sessionId : Option String) : String :=
  inputConvId.getD (sessionId.getD "default")

/-- The key a tool handler operates on. -/
def toolKey (inputConvId sessionId : Option String) : Key :=
  some (resolveToolId inputConvId sessionId)

/-- The only error the handlers raise:
`McpError(ErrorCode.InvalidParams, message)`. -/
inductive McpErr where
  | invalidParams (msg : String)
deriving Repr, DecidableEq

/-- Rendering of one aspect of a conversation state (the `switch` in the
resource read callback); an unknown aspect throws the invalid-params error. -/
def renderAspect (aspect : String) (s : ConvState) : Except McpErr String :=
  if aspect = "goal" then
    .ok (s.goal.getD "No conversation goal has been set yet.")
  else if aspect = "summary" then
    .ok (s.summary.getD "No summary is currently available for this conversation.")
  else if aspect = "state" then
    .ok ("The conversation is currently in the \x27" ++ s.phase ++ "\x27 phase.")
  else if aspect = "keyPoints" then
    .ok (if s.keyPoints.length > 0 then
          String.intercalate "\n" (s.keyPoints.map (fun p => "- " ++ p))
        else "No key points have been recorded yet.")
  else
    .error (.invalidParams ("Unknown conversation aspect requested: " ++ aspect))

/-- The `conversationAspect` read callback: resolve the identity, load the
state (lazy creation happens here, before the aspect is inspected), then
render the aspect or throw. -/
def readResource (convId : ConvIdParam) (sessionId : Option String)
    (aspect : String) (st : Store) : Except McpErr String × Store :=
  let g := getConversationState (resolveId convId sessionId) st
  (renderAspect aspect g.1, g.2)

/-- The `set_conversation_goal` tool handler. -/
def set_conversation_goal (goalDescription : String)
    (inputConvId sessionId : Option String) (st : Store) : String × Store :=
  let k := toolKey inputConvId sessionId
  let g := getConversationState k st
  ("Conversation goal has been set to: \"" ++ goalDescription ++ "\"",
   updateState k { g.1 with goal := some goalDescription, phase := "exploring" } g.2)

/-- The placeholder summarizer: a fixed label, the first 150 characters of the
source (JS `substring(0, 150)`), and an ellipsis only when the source is
longer than 150 characters. -/
def mockSummary (textToSummarize : String) : String :=
  "Summary based on text provided: " ++ String.mk (textToSummarize.data.take 150)
    ++ (if textToSummarize.length > 150 then "..." else "")

/-- The `summarize_conversation` tool handler. -/
def summarize_conversation (textToSummarize : String)
    (inputConvId sessionId : Option String) (st : Store) : String × Store :=
  let k := toolKey inputConvId sessionId
  let g := getConversationState k st
  ("OK, I\x27ve updated the conversation summary.",
   updateState k { g.1 with summary := some (mockSummary textToSummarize),
                            phase := "summarizing" } g.2)

/-- JS truthiness of `state.goal`: `null` and the empty string are falsy. -/
def goalTruthy : Option String → Bool
  | none => false
  | some g => !g.isEmpty

/-- The `suggest_next_step` tool handler: with a falsy goal it prompts for a
goal and moves the phase to `defining_goal`; with a goal set it switches on
the phase, mentioning the goal in the three named phases and falling back to
a generic prompt (moving to `defining_goal`) in the default branch. -/
def suggest_next_step (inputConvId sessionId : Option String) (st : Store) :
    String × Store :=
  let k := toolKey inputConvId sessionId
  let g := getConversationState k st
  if goalTruthy g.1.goal then
    let goalText := g.1.goal.getD ""
    if g.1.phase = "defining_goal" then
      ("Now that the goal is set to \"" ++ goalText ++
        "\", maybe we can start exploring options or gathering information related to it?",
       g.2)
    else if g.1.phase = "exploring" then
      ("Continuing towards the goal \"" ++ goalText ++
        "\", what specific aspect should we focus on next? Or perhaps we should record some key points?",
       g.2)
    else if g.1.phase = "summarizing" then
      ("I\x27ve just updated the summary. Based on that and our goal \"" ++ goalText ++
        "\", what\x27s the next priority?",
       g.2)
    else
      ("Let\x27s get started. We should probably define a goal for this conversation first using \x27set_conversation_goal\x27.",
       updateState k { g.1 with phase := "defining_goal" } g.2)
  else
    ("We haven\x27t set a goal yet. Let\x27s define the main objective using the \x27set_conversation_goal\x27 tool.",
     updateState k { g.1 with phase := "defining_goal" } g.2)

/-- The `record_key_point` tool handler: appends the point unless it is
already present (exact text match), in which case nothing is mutated and a
distinct acknowledgment is returned. -/
def record_key_point (keyPoint : String)
    (inputConvId sessionId : Option String) (st : Store) : String × Store :=
  let k := toolKey inputConvId sessionId
  let g := getConversationState k st
  if keyPoint ∈ g.1.keyPoints then
    ("That point seems to be already recorded.", g.2)
  else
    ("Noted. Key point recorded: \"" ++ keyPoint ++ "\"",
     updateState k { g.1 with keyPoints := g.1.keyPoints ++ [keyPoint] } g.2)

/-- One inbound request: a tool call or a resource read. -/
inductive Op where
  | setGoal (goalDescription : String) (inputConvId sessionId : Option String)
  | summarize (textToSummarize : String) (inputConvId sessionId : Option String)
  | suggest (inputConvId sessionId : Option String)
  | recordPoint (keyPoint : String) (inputConvId sessionId : Option String)
  | readRes (convId : ConvIdParam) (sessionId : Option String) (aspect : String)

/-- Store effect of one request. -/
def applyOp : Op → Store → Store
  | .setGoal g c s, st => (set_conversation_goal g c s st).2
  | .summarize t c s, st => (summarize_conversation t c s st).2
  | .suggest c s, st => (suggest_next_step c s st).2
  | .recordPoint p c s, st => (record_key_point p c s st).2
  | .readRes c s a, st => (readResource c s a st).2

/-- Store after a sequence of requests. -/
def runOps (ops : List Op) (st : Store) : Store :=
  ops.foldl (fun acc op => applyOp op acc) st

/-- The minimum-length preconditions the (excluded) schema layer enforces on
tool payloads. -/
def Op.valid : Op → Prop
  | .setGoal g _ _ => 5 ≤ g.length
  | .summarize t _ _ => 10 ≤ t.length
  | .suggest _ _ => True
  | .recordPoint p _ _ => 5 ≤ p.length
  | .readRes _ _ _ => True

/-- A request sequence whose tool payloads all meet their preconditions. -/
def ValidOps (ops : List Op) : Prop := ∀ op ∈ ops, op.valid

/-- The four legal phases. -/
def phases : List String := ["idle", "defining_goal", "exploring", "summarizing"]

/-- Well-formedness of one stored conversation state. -/
def GoodState (s : ConvState) : Prop :=
  s.phase ∈ phases ∧
  s.keyPoints.Nodup ∧
  (s.goal = none ∨ ∃ g, s.goal = some g ∧ 5 ≤ g.length) ∧
  (s.goal ≠ none → s.phase ∈ ["defining_goal", "exploring", "summarizing"])

/-- The store invariant maintained by every request: keys are distinct, every
entry records its own key, and every entry is well-formed. -/
def StoreInv (st : Store) : Prop :=
  (st.map Prod.fst).Nodup ∧
  ∀ k s, lookupState k st = some s → s.id = k ∧ GoodState s

/-- The state a tool handler sees after the lazy-creating lookup. -/
def loadedState (inputConvId sessionId : Option String) (st : Store) : ConvState :=
  (getConversationState (toolKey inputConvId sessionId) st).1

/-- The phase stored for the tool handler key of a store. -/
def phaseAfter (inputConvId sessionId : Option String) (st : Store) : Option String :=
  (lookupState (toolKey inputConvId sessionId) st).map ConvState.phase

/-- Character-list matching at the head: `matchesAt n h` holds when `n` is an
initial segment of `h`. -/
def matchesAt : List Char → List Char → Bool
  | [], _ => true
  | _ :: _, [] => false
  | c :: cs, d :: ds => c = d && matchesAt cs ds

/-- Substring search on character lists. -/
def containsSub (needle : List Char) : List Char → Bool
  | [] => needle.isEmpty
  | d :: ds => matchesAt needle (d :: ds) || containsSub needle ds

/-- String containment: `needle` occurs contiguously inside `hay`. -/
def strContains (hay needle : String) : Bool := containsSub needle.data hay.data

/-- The phase `suggest_next_step` leaves the conversation in, as a function of
the state it loaded. -/
def suggestPhase (s : ConvState) : String :=
  if goalTruthy s.goal then
    if s.phase = "defining_goal" ∨ s.phase = "exploring" ∨ s.phase = "summarizing"
    then s.phase else "defining_goal"
  else "defining_goal"

/-- Resolution order as the spec states it: the explicit identifier when
present and singular; the first element when it arrived as a sequence; the
session identifier when present; else the literal `"default"`. Spec-side
restatement, for comparison with `resolveId`. -/
def resolveIdSpec : ConvIdParam → Option String → Key
  | .single s, _ => some s
  | .listOf l, _ => l.head?
  | .absent, sid => some (sid.getD "default")

/-- The selected candidate is non-empty: condition under which resolution is
guaranteed to produce a non-empty identity. -/
def nonEmptyCandidates : ConvIdParam → Option String → Prop
  | .single s, _ => s ≠ ""
  | .listOf l, _ => ∃ x xs, l = x :: xs ∧ x ≠ ""
  | .absent, some t => t ≠ ""
  | .absent, none => True

/-- A store exhibiting a goal-bearing conversation whose phase is `idle`
(a combination no request sequence produces, but expressible as a state). -/
def idleGoalStore : Store :=
  [(some "c1", { id := some "c1", goal := some "Plan a trip", summary := none,
                 keyPoints := [], phase := "idle" })]

namespace Lemmas

/-- Lookup distributes over append when the key misses the first part. -/
theorem lookupState_append_of_none {k : Key} {st : Store} (l : Store)
    (h : lookupState k st = none) :
    lookupState k (st ++ l) = lookupState k l := by
  induction st with
  | nil => simp
  | cons p rest ih =>
    by_cases hk : p.1 = k
    · simp [lookupState, hk] at h
    · simp only [lookupState, hk, if_false, List.cons_append] at h ⊢
      exact ih h

/-- Lookup distributes over append when the key hits the first part. -/
theorem lookupState_append_of_some {k : Key} {st : Store} {s : ConvState}
    (l : Store) (h : lookupState k st = some s) :
    lookupState k (st ++ l) = some s := by
  induction st with
  | nil => simp [lookupState] at h
  | cons p rest ih =>
    by_cases hk : p.1 = k
    · simp only [lookupState, hk, if_true, if_pos] at h ⊢
      exact h
    · simp only [lookupState, hk, if_false, List.cons_append] at h ⊢
      exact ih h

/-- A key misses the store exactly when it is not among the stored keys. -/
theorem lookupState_eq_none_iff (k : Key) (st : Store) :
    lookupState k st = none ↔ k ∉ st.map Prod.fst := by
  induction st with
  | nil => simp [lookupState]
  | cons p rest ih =>
    by_cases hk : p.1 = k
    · simp [lookupState, hk]
    · have hk' : ¬ k = p.1 := fun hh => hk hh.symm
      simp [lookupState, hk, hk', ih]

/-- `getConversationState` on a hit returns the entry, store unchanged. -/
theorem get_of_some {k : Key} {st : Store} {s : ConvState}
    (h : lookupState k st = some s) :
    getConversationState k st = (s, st) := by
  simp [getConversationState, h]

/-- `getConversationState` on a miss appends exactly one default entry. -/
theorem get_of_none {k : Key} {st : Store} (h : lookupState k st = none) :
    getConversationState k st = (initState k, st ++ [(k, initState k)]) := by
  simp [getConversationState, h]

/-- After `getConversationState`, the key maps to the returned state. -/
theorem lookup_get_self (k : Key) (st : Store) :
    lookupState k (getConversationState k st).2 =
      some (getConversationState k st).1 := by
  cases h : lookupState k st with
  | some s => simp [get_of_some h, h]
  | none =>
    rw [get_of_none h]
    simp [lookupState_append_of_none _ h, lookupState]

/-- `getConversationState` does not disturb other keys. -/
theorem lookup_get_other {k k' : Key} (st : Store) (hne : k' ≠ k) :
    lookupState k' (getConversationState k st).2 = lookupState k' st := by
  cases h : lookupState k st with
  | some s => rw [get_of_some h]
  | none =>
    rw [get_of_none h]
    cases h' : lookupState k' st with
    | some s' => simp only [lookupState_append_of_some _ h', h']
    | none =>
      simp only [lookupState_append_of_none _ h', h', lookupState]
      simp [Ne.symm hne]

/-- Updating a key rewrites exactly the entry stored under it. -/
theorem lookup_update_self (k : Key) (s : ConvState) (st : Store) :
    lookupState k (updateState k s st) = (lookupState k st).map (fun _ => s) := by
  induction st with
  | nil => rfl
  | cons p rest ih =>
    by_cases hk : p.1 = k
    · simp [updateState, lookupState, hk]
    · simp [updateState, lookupState, hk, ih]

/-- Updating a key does not disturb other keys. -/
theorem lookup_update_other {k k' : Key} (s : ConvState) (st : Store)
    (hne : k' ≠ k) :
    lookupState k' (updateState k s st) = lookupState k' st := by
  induction st with
  | nil => rfl
  | cons p rest ih =>
    by_cases hk : p.1 = k
    · simp [updateState, lookupState, hk, Ne.symm hne, ih]
    · simp only [updateState, if_neg hk, lookupState, ih]

/-- Updating a key preserves the key sequence of the store. -/
theorem keys_update (k : Key) (s : ConvState) (st : Store) :
    (updateState k s st).map Prod.fst = st.map Prod.fst := by
  induction st with
  | nil => rfl
  | cons p rest ih =>
    by_cases hk : p.1 = k
    · simp [updateState, hk, ih]
    · simp [updateState, hk, ih]

/-- The default state is well-formed and records its key. -/
theorem initState_good (k : Key) : (initState k).id = k ∧ GoodState (initState k) := by
  refine ⟨rfl, ?_, ?_, ?_, ?_⟩ <;> simp [initState, GoodState, phases]

/-- The empty store satisfies the invariant. -/
theorem storeInv_nil : StoreInv [] := by
  refine ⟨by simp, ?_⟩
  intro k s h
  simp [lookupState] at h

/-- The lazy-creating lookup preserves the invariant, and the state it
returns is well-formed and keyed correctly. -/
theorem storeInv_get {st : Store} (h : StoreInv st) (k : Key) :
    StoreInv (getConversationState k st).2 ∧
      (getConversationState k st).1.id = k ∧
      GoodState (getConversationState k st).1 := by
  cases hh : lookupState k st with
  | some s =>
    rw [get_of_some hh]
    exact ⟨h, h.2 k s hh⟩
  | none =>
    rw [get_of_none hh]
    refine ⟨⟨?_, ?_⟩, initState_good k⟩
    · have hk : k ∉ st.map Prod.fst := (lookupState_eq_none_iff k st).mp hh
      simp [List.nodup_append, h.1, hk]
    · intro k' s' h'
      cases hl : lookupState k' st with
      | some s2 =>
        rw [lookupState_append_of_some _ hl] at h'
        exact (Option.some_inj.mp h') ▸ h.2 k' s2 hl
      | none =>
        rw [lookupState_append_of_none _ hl] at h'
        by_cases hk : k = k'
        · subst hk
          simp [lookupState] at h'
          subst h'
          exact initState_good k
        · simp [lookupState, hk] at h'

/-- Updating an entry with a well-formed state keyed by its own key preserves
the invariant. -/
theorem storeInv_update {st : Store} {k : Key} {s : ConvState}
    (h : StoreInv st) (hid : s.id = k) (hs : GoodState s) :
    StoreInv (updateState k s st) := by
  refine ⟨by rw [keys_update]; exact h.1, ?_⟩
  intro k' s' h'
  by_cases hk : k' = k
  · subst hk
    rw [lookup_update_self] at h'
    cases hl : lookupState k' st with
    | some s0 => rw [hl] at h'; cases h'; exact ⟨hid, hs⟩
    | none => rw [hl] at h'; cases h'
  · rw [lookup_update_other _ _ hk] at h'
    exact h.2 k' s' h'

/-- Setting a goal meeting the minimum length, with phase `exploring`,
preserves well-formedness. -/
theorem goodState_setGoal {s : ConvState} (hs : GoodState s) {g : String}
    (hg : 5 ≤ g.length) :
    GoodState { s with goal := some g, phase := "exploring" } := by
  refine ⟨by simp [phases], hs.2.1, Or.inr ⟨g, rfl, hg⟩, by intro _; simp⟩

/-- Overwriting the summary, with phase `summarizing`, preserves
well-formedness. -/
theorem goodState_summary {s : ConvState} (hs : GoodState s) (t : String) :
    GoodState { s with summary := some t, phase := "summarizing" } := by
  refine ⟨by simp [phases], hs.2.1, hs.2.2.1, by intro _; simp⟩

/-- Moving the phase to `defining_goal` preserves well-formedness. -/
theorem goodState_defining {s : ConvState} (hs : GoodState s) :
    GoodState { s with phase := "defining_goal" } := by
  refine ⟨by simp [phases], hs.2.1, hs.2.2.1, by intro _; simp⟩

/-- Appending a fresh key point preserves well-formedness. -/
theorem goodState_append {s : ConvState} (hs : GoodState s) {p : String}
    (hp : p ∉ s.keyPoints) :
    GoodState { s with keyPoints := s.keyPoints ++ [p] } := by
  refine ⟨hs.1, ?_, hs.2.2.1, hs.2.2.2⟩
  simp [List.nodup_append, hs.2.1, hp]

/-- The phase `suggest_next_step` computes is always legal, and keeps the
state well-formed. -/
theorem goodState_suggestPhase {s : ConvState} (hs : GoodState s) :
    GoodState { s with phase := suggestPhase s } := by
  refine ⟨?_, hs.2.1, hs.2.2.1, ?_⟩
  · simp only [suggestPhase]
    by_cases h1 : goalTruthy s.goal
    · by_cases h2 : s.phase = "defining_goal" ∨ s.phase = "exploring" ∨
          s.phase = "summarizing"
      · simpa [h1, h2] using hs.1
      · simp [h1, h2, phases]
    · simp [h1, phases]
  · intro _
    simp only [suggestPhase]
    by_cases h1 : goalTruthy s.goal
    · by_cases h2 : s.phase = "defining_goal" ∨ s.phase = "exploring" ∨
          s.phase = "summarizing"
      · simp only [h1, h2, if_true, if_pos]
        simpa using h2
      · simp [h1, h2]
    · simp [h1]

/-- The store returned by `set_conversation_goal`, unfolded. -/
theorem setGoal_snd (g : String) (c sid : Option String) (st : Store) :
    (set_conversation_goal g c sid st).2 =
      updateState (toolKey c sid)
        { loadedState c sid st with goal := some g, phase := "exploring" }
        (getConversationState (toolKey c sid) st).2 := rfl

/-- The store returned by `summarize_conversation`, unfolded. -/
theorem summarize_snd (t : String) (c sid : Option String) (st : Store) :
    (summarize_conversation t c sid st).2 =
      updateState (toolKey c sid)
        { loadedState c sid st with summary := some (mockSummary t),
                                    phase := "summarizing" }
        (getConversationState (toolKey c sid) st).2 := rfl

/-- The store returned by `record_key_point`, unfolded. -/
theorem record_snd (p : String) (c sid : Option String) (st : Store) :
    (record_key_point p c sid st).2 =
      if p ∈ (loadedState c sid st).keyPoints
      then (getConversationState (toolKey c sid) st).2
      else updateState (toolKey c sid)
        { loadedState c sid st with
            keyPoints := (loadedState c sid st).keyPoints ++ [p] }
        (getConversationState (toolKey c sid) st).2 := by
  simp only [loadedState]
  by_cases hp : p ∈ (getConversationState (toolKey c sid) st).1.keyPoints <;>
    simp [record_key_point, hp]

/-- The store returned by `suggest_next_step`: either the phase moved to the
one `suggestPhase` computes, or nothing was written because that phase equals
the current one. -/
theorem suggest_snd (c sid : Option String) (st : Store) :
    (suggest_next_step c sid st).2 =
      updateState (toolKey c sid)
        { loadedState c sid st with
            phase := suggestPhase (loadedState c sid st) }
        (getConversationState (toolKey c sid) st).2 ∨
    ((suggest_next_step c sid st).2 = (getConversationState (toolKey c sid) st).2 ∧
      suggestPhase (loadedState c sid st) = (loadedState c sid st).phase) := by
  simp only [suggest_next_step, suggestPhase, loadedState]
  by_cases h1 : goalTruthy (getConversationState (toolKey c sid) st).1.goal
  · by_cases h2 : (getConversationState (toolKey c sid) st).1.phase = "defining_goal"
    · right
      simp [h1, h2]
    · by_cases h3 : (getConversationState (toolKey c sid) st).1.phase = "exploring"
      · right
        simp [h1, h2, h3]
      · by_cases h4 : (getConversationState (toolKey c sid) st).1.phase = "summarizing"
        · right
          simp [h1, h2, h3, h4]
        · left
          simp [h1, h2, h3, h4]
  · left
    simp [h1]

/-- The store returned by the resource read callback, unfolded. -/
theorem readResource_snd (convId : ConvIdParam) (sid : Option String)
    (aspect : String) (st : Store) :
    (readResource convId sid aspect st).2 =
      (getConversationState (resolveId convId sid) st).2 := rfl

/-- Every request preserves the store invariant. -/
theorem storeInv_applyOp {op : Op} {st : Store} (hv : op.valid)
    (h : StoreInv st) : StoreInv (applyOp op st) := by
  cases op with
  | setGoal g c sid =>
    have hg := storeInv_get h (toolKey c sid)
    rw [show applyOp (Op.setGoal g c sid) st = (set_conversation_goal g c sid st).2 from rfl,
      setGoal_snd]
    exact storeInv_update hg.1 hg.2.1 (goodState_setGoal hg.2.2 hv)
  | summarize t c sid =>
    have hg := storeInv_get h (toolKey c sid)
    rw [show applyOp (Op.summarize t c sid) st = (summarize_conversation t c sid st).2 from rfl,
      summarize_snd]
    exact storeInv_update hg.1 hg.2.1 (goodState_summary hg.2.2 _)
  | suggest c sid =>
    have hg := storeInv_get h (toolKey c sid)
    rw [show applyOp (Op.suggest c sid) st = (suggest_next_step c sid st).2 from rfl]
    rcases suggest_snd c sid st with heq | ⟨heq, _⟩ <;> rw [heq]
    · exact storeInv_update hg.1 hg.2.1 (goodState_suggestPhase hg.2.2)
    · exact hg.1
  | recordPoint p c sid =>
    have hg := storeInv_get h (toolKey c sid)
    rw [show applyOp (Op.recordPoint p c sid) st = (record_key_point p c sid st).2 from rfl,
      record_snd]
    by_cases hp : p ∈ (loadedState c sid st).keyPoints
    · rw [if_pos hp]
      exact hg.1
    · rw [if_neg hp]
      exact storeInv_update hg.1 hg.2.1 (goodState_append hg.2.2 hp)
  | readRes convId sid aspect =>
    have hg := storeInv_get h (resolveId convId sid)
    rw [show applyOp (Op.readRes convId sid aspect) st = (readResource convId sid aspect st).2 from rfl,
      readResource_snd]
    exact hg.1

/-- A valid head request splits off a valid tail. -/
theorem validOps_cons {op : Op} {ops : List Op} (h : ValidOps (op :: ops)) :
    op.valid ∧ ValidOps ops :=
  ⟨h op (List.mem_cons_self op ops), fun o ho => h o (List.mem_cons_of_mem _ ho)⟩

/-- Running a sequence step by step. -/
theorem runOps_cons (op : Op) (ops : List Op) (st : Store) :
    runOps (op :: ops) st = runOps ops (applyOp op st) := rfl

/-- The store invariant holds after any valid request sequence. -/
theorem storeInv_runOps {ops : List Op} {st : Store} (hv : ValidOps ops)
    (h : StoreInv st) : StoreInv (runOps ops st) := by
  induction ops generalizing st with
  | nil => exact h
  | cons op rest ih =>
    rw [runOps_cons]
    exact ih (validOps_cons hv).2 (storeInv_applyOp (validOps_cons hv).1 h)

/-- The invariant on every store reachable from the empty one. -/
theorem storeInv_reachable {ops : List Op} (hv : ValidOps ops) :
    StoreInv (runOps ops []) :=
  storeInv_runOps hv storeInv_nil

/-- A needle matches at the head of itself followed by anything. -/
theorem matchesAt_self_append (n b : List Char) : matchesAt n (n ++ b) = true := by
  induction n with
  | nil => rfl
  | cons c cs ih => simp [matchesAt, ih]

/-- A needle is found in itself followed by anything. -/
theorem containsSub_here (n b : List Char) : containsSub n (n ++ b) = true := by
  cases n with
  | nil =>
    cases b with
    | nil => rfl
    | cons d ds => simp [containsSub, matchesAt]
  | cons c cs =>
    simp only [List.cons_append, containsSub, Bool.or_eq_true]
    exact Or.inl (by simpa using matchesAt_self_append (c :: cs) b)

/-- A needle is found in any surrounding context. -/
theorem containsSub_append_left (n a b : List Char) :
    containsSub n (a ++ (n ++ b)) = true := by
  induction a with
  | nil => simpa using containsSub_here n b
  | cons d ds ih => simp [containsSub, ih]

/-- Matching at the head needs a hay at least as long as the needle. -/
theorem matchesAt_length {n h : List Char} (hm : matchesAt n h = true) :
    n.length ≤ h.length := by
  induction n generalizing h with
  | nil => simp
  | cons c cs ih =>
    cases h with
    | nil => simp [matchesAt] at hm
    | cons d ds =>
      simp only [matchesAt, Bool.and_eq_true] at hm
      have := ih hm.2
      simp only [List.length_cons]
      omega

/-- A found needle is no longer than the hay. -/
theorem containsSub_length {n h : List Char} (hc : containsSub n h = true) :
    n.length ≤ h.length := by
  induction h with
  | nil =>
    simp only [containsSub, List.isEmpty_iff] at hc
    simp [hc]
  | cons d ds ih =>
    simp only [containsSub, Bool.or_eq_true] at hc
    rcases hc with hm | hc
    · exact matchesAt_length hm
    · have := ih hc
      simp only [List.length_cons]
      omega

/-- Matching at the head with equal lengths is equality. -/
theorem matchesAt_eq {n h : List Char} (hm : matchesAt n h = true)
    (hl : n.length = h.length) : n = h := by
  induction n generalizing h with
  | nil =>
    cases h with
    | nil => rfl
    | cons d ds => simp at hl
  | cons c cs ih =>
    cases h with
    | nil => simp at hl
    | cons d ds =>
      simp only [matchesAt, Bool.and_eq_true, decide_eq_true_eq] at hm
      simp only [List.length_cons, Nat.add_right_cancel_iff] at hl
      rw [hm.1, ih hm.2 hl]

/-- A found needle of the same length as the hay is the hay. -/
theorem containsSub_eq {n h : List Char} (hc : containsSub n h = true)
    (hl : n.length = h.length) : n = h := by
  cases h with
  | nil =>
    simpa [containsSub, List.isEmpty_iff] using hc
  | cons d ds =>
    simp only [containsSub, Bool.or_eq_true] at hc
    rcases hc with hm | hc
    · exact matchesAt_eq hm hl
    · exfalso
      have := containsSub_length hc
      simp only [List.length_cons] at hl
      omega

/-- After `set_conversation_goal`, the handler key holds the loaded state
with only `goal` and `phase` rewritten. -/
theorem setGoal_lookup_self (g : String) (c sid : Option String) (st : Store) :
    lookupState (toolKey c sid) (set_conversation_goal g c sid st).2 =
      some { loadedState c sid st with goal := some g, phase := "exploring" } := by
  rw [setGoal_snd, lookup_update_self, lookup_get_self]
  rfl

/-- `set_conversation_goal` does not disturb other keys. -/
theorem setGoal_lookup_other (g : String) (c sid : Option String) (st : Store)
    {k' : Key} (h : k' ≠ toolKey c sid) :
    lookupState k' (set_conversation_goal g c sid st).2 = lookupState k' st := by
  rw [setGoal_snd, lookup_update_other _ _ h, lookup_get_other _ h]

/-- After `summarize_conversation`, the handler key holds the loaded state
with only `summary` and `phase` rewritten. -/
theorem summarize_lookup_self (t : String) (c sid : Option String) (st : Store) :
    lookupState (toolKey c sid) (summarize_conversation t c sid st).2 =
      some { loadedState c sid st with summary := some (mockSummary t),
                                       phase := "summarizing" } := by
  rw [summarize_snd, lookup_update_self, lookup_get_self]
  rfl

/-- `summarize_conversation` does not disturb other keys. -/
theorem summarize_lookup_other (t : String) (c sid : Option String) (st : Store)
    {k' : Key} (h : k' ≠ toolKey c sid) :
    lookupState k' (summarize_conversation t c sid st).2 = lookupState k' st := by
  rw [summarize_snd, lookup_update_other _ _ h, lookup_get_other _ h]

/-- After `record_key_point`, the handler key holds the loaded state with only
`keyPoints` rewritten (unchanged on a duplicate). -/
theorem record_lookup_self (p : String) (c sid : Option String) (st : Store) :
    lookupState (toolKey c sid) (record_key_point p c sid st).2 =
      some { loadedState c sid st with
        keyPoints := if p ∈ (loadedState c sid st).keyPoints
                     then (loadedState c sid st).keyPoints
                     else (loadedState c sid st).keyPoints ++ [p] } := by
  rw [record_snd]
  by_cases hp : p ∈ (loadedState c sid st).keyPoints
  · rw [if_pos hp, if_pos hp, lookup_get_self]
    rfl
  · rw [if_neg hp, if_neg hp, lookup_update_self, lookup_get_self]
    rfl

/-- `record_key_point` does not disturb other keys. -/
theorem record_lookup_other (p : String) (c sid : Option String) (st : Store)
    {k' : Key} (h : k' ≠ toolKey c sid) :
    lookupState k' (record_key_point p c sid st).2 = lookupState k' st := by
  rw [record_snd]
  by_cases hp : p ∈ (loadedState c sid st).keyPoints
  · rw [if_pos hp, lookup_get_other _ h]
  · rw [if_neg hp, lookup_update_other _ _ h, lookup_get_other _ h]

/-- After `suggest_next_step`, the handler key holds the loaded state with the
phase `suggestPhase` computes. -/
theorem suggest_lookup_self (c sid : Option String) (st : Store) :
    lookupState (toolKey c sid) (suggest_next_step c sid st).2 =
      some { loadedState c sid st with
        phase := suggestPhase (loadedState c sid st) } := by
  rcases suggest_snd c sid st with heq | ⟨heq, hph⟩
  · rw [heq, lookup_update_self, lookup_get_self]
    rfl
  · rw [heq, lookup_get_self, hph]
    rfl

/-- `suggest_next_step` does not disturb other keys. -/
theorem suggest_lookup_other (c sid : Option String) (st : Store)
    {k' : Key} (h : k' ≠ toolKey c sid) :
    lookupState k' (suggest_next_step c sid st).2 = lookupState k' st := by
  rcases suggest_snd c sid st with heq | ⟨heq, _⟩
  · rw [heq, lookup_update_other _ _ h, lookup_get_other _ h]
  · rw [heq, lookup_get_other _ h]

/-- The suggestion text in each phase when a non-empty goal is set, and in
the falsy-goal case. -/
theorem suggest_fst (c sid : Option String) (st : Store) :
    (goalTruthy (loadedState c sid st).goal = false →
      (suggest_next_step c sid st).1 =
        "We haven\x27t set a goal yet. Let\x27s define the main objective using the \x27set_conversation_goal\x27 tool.") ∧
    (∀ g, (loadedState c sid st).goal = some g → g.isEmpty = false →
      ((loadedState c sid st).phase = "defining_goal" →
        (suggest_next_step c sid st).1 =
          "Now that the goal is set to \"" ++ g ++
            "\", maybe we can start exploring options or gathering information related to it?") ∧
      ((loadedState c sid st).phase = "exploring" →
        (suggest_next_step c sid st).1 =
          "Continuing towards the goal \"" ++ g ++
            "\", what specific aspect should we focus on next? Or perhaps we should record some key points?") ∧
      ((loadedState c sid st).phase = "summarizing" →
        (suggest_next_step c sid st).1 =
          "I\x27ve just updated the summary. Based on that and our goal \"" ++ g ++
            "\", what\x27s the next priority?") ∧
      ((loadedState c sid st).phase ≠ "defining_goal" →
        (loadedState c sid st).phase ≠ "exploring" →
        (loadedState c sid st).phase ≠ "summarizing" →
        (suggest_next_step c sid st).1 =
          "Let\x27s get started. We should probably define a goal for this conversation first using \x27set_conversation_goal\x27.")) := by
  constructor
  · intro hf
    simp only [suggest_next_step, loadedState] at hf ⊢
    simp [hf]
  · intro g hg hne
    simp only [loadedState] at hg
    refine ⟨?_, ?_, ?_, ?_⟩
    · intro h1
      simp only [suggest_next_step, loadedState] at h1 ⊢
      simp [hg, goalTruthy, hne, h1]
    · intro h1
      simp only [suggest_next_step, loadedState] at h1 ⊢
      simp [hg, goalTruthy, hne, h1]
    · intro h1
      simp only [suggest_next_step, loadedState] at h1 ⊢
      simp [hg, goalTruthy, hne, h1]
    · intro h1 h2 h3
      simp only [suggest_next_step, loadedState] at h1 h2 h3 ⊢
      simp [hg, goalTruthy, hne, h1, h2, h3]

/-- The fixed label has 32 characters. -/
theorem label_length : ("Summary based on text provided: " : String).length = 32 := rfl

/-- The fixed acknowledgment has 42 characters. -/
theorem ack_length :
    ("OK, I\x27ve updated the conversation summary." : String).length = 42 := rfl

/-- For sources of at most 150 characters, the summary is the label followed
by the source itself (no ellipsis, also at exactly 150). -/
theorem mockSummary_short {t : String} (h : t.length ≤ 150) :
    mockSummary t = "Summary based on text provided: " ++ t := by
  simp only [mockSummary]
  rw [List.take_of_length_le (show t.data.length ≤ 150 from h),
    if_neg (by omega), String.append_empty]

/-- For sources longer than 150 characters, the summary is the label, the
first 150 characters, and the ellipsis. -/
theorem mockSummary_long {t : String} (h : 150 < t.length) :
    mockSummary t =
      "Summary based on text provided: " ++ String.mk (t.data.take 150) ++ "..." := by
  simp only [mockSummary]
  rw [if_pos h]

/-- Length of the generated summary. -/
theorem mockSummary_length (t : String) :
    (mockSummary t).length =
      32 + min 150 t.length + (if 150 < t.length then 3 else 0) := by
  have htake : (String.mk (t.data.take 150)).length = min 150 t.length := by
    show (t.data.take 150).length = min 150 t.length
    exact List.length_take 150 t.data
  by_cases h : 150 < t.length
  · rw [mockSummary_long h, if_pos h, String.length_append, String.length_append,
      htake, label_length]
    rfl
  · rw [mockSummary_short (by omega), if_neg h, String.length_append, label_length,
      min_eq_right (by omega)]
    omega

/-- A string occurs in any concatenation that embeds it. -/
theorem strContains_append (pre g suf : String) :
    strContains (pre ++ g ++ suf) g = true := by
  simp only [strContains, String.data_append]
  rw [List.append_assoc]
  exact containsSub_append_left _ _ _

/-- The fixed acknowledgment never contains the generated summary. -/
theorem mock_not_in_ack {t : String} (ht : 10 ≤ t.length) :
    strContains "OK, I\x27ve updated the conversation summary." (mockSummary t) = false := by
  cases hb : strContains "OK, I\x27ve updated the conversation summary." (mockSummary t) with
  | false => rfl
  | true =>
    exfalso
    have hb' : containsSub (mockSummary t).data
        ("OK, I\x27ve updated the conversation summary." : String).data = true := hb
    have hlen : (mockSummary t).length ≤ 42 := containsSub_length hb'
    have h150 : ¬ 150 < t.length := by
      intro hgt
      have := mockSummary_length t
      rw [if_pos hgt, min_eq_left (by omega)] at this
      omega
    have hml : (mockSummary t).length = 32 + t.length := by
      have := mockSummary_length t
      rw [if_neg h150, min_eq_right (by omega)] at this
      omega
    have ht10 : t.length = 10 := by omega
    have heq : (mockSummary t).data =
        ("OK, I\x27ve updated the conversation summary." : String).data :=
      containsSub_eq hb' (by
        show (mockSummary t).length = ("OK, I\x27ve updated the conversation summary." : String).length
        rw [hml, ht10, ack_length])
    have hS : (some 'S' : Option Char) = some 'O' := by
      calc (some 'S' : Option Char)
          = (mockSummary t).data.head? := by
            rw [mockSummary_short (by omega), String.data_append]
            rfl
        _ = ("OK, I\x27ve updated the conversation summary." : String).data.head? := by
            rw [heq]
        _ = some 'O' := rfl
    exact absurd hS (by decide)

/-- A singleton request sequence is valid when its request is. -/
theorem validOps_singleton {op : Op} (h : op.valid) : ValidOps [op] := by
  intro o ho
  simp only [List.mem_singleton] at ho
  subst ho
  exact h

/-- The duplicate acknowledgment differs from every confirmation message. -/
theorem record_msgs_ne (p : String) :
    ("That point seems to be already recorded." : String) ≠
      "Noted. Key point recorded: \"" ++ p ++ "\"" := by
  intro h
  have h2 : (some 'T' : Option Char) = some 'N' := by
    calc (some 'T' : Option Char)
        = ("That point seems to be already recorded." : String).data.head? := rfl
      _ = ("Noted. Key point recorded: \"" ++ p ++ "\"").data.head? := by rw [h]
      _ = some 'N' := by
          rw [String.data_append, String.data_append]
          rfl
  exact absurd h2 (by decide)

end Lemmas

/-- C1 counterexample: reading the unknown aspect "bogus" for the never-seen
identity "c1" on the empty store raises the invalid-parameters error, yet the
store does not stay unchanged: the lazy creation performed before the aspect
check has already inserted a default entry for "c1". -/
theorem claim1_counterexample :
    (readResource (ConvIdParam.single "c1") none "bogus" []).1 =
      Except.error (McpErr.invalidParams
        "Unknown conversation aspect requested: bogus") ∧
    (readResource (ConvIdParam.single "c1") none "bogus" []).2 =
      [(some "c1", initState (some "c1"))] ∧
    (readResource (ConvIdParam.single "c1") none "bogus" []).2 ≠ ([] : Store) := by
  refine ⟨rfl, rfl, ?_⟩
  decide

/-- C1 (amended): for every identity parameter, session, store, and aspect
outside the closed set, the read raises the invalid-parameters error and
mutates no conversation fields; the store changes only by the lazy creation
the identity-first lookup performs before the aspect is validated. -/
theorem claim1_amended (convId : ConvIdParam) (sid : Option String)
    (aspect : String) (st : Store)
    (ha : aspect ∉ (["goal", "summary", "state", "keyPoints"] : List String)) :
    (readResource convId sid aspect st).1 =
      Except.error (McpErr.invalidParams
        ("Unknown conversation aspect requested: " ++ aspect)) ∧
    (readResource convId sid aspect st).2 =
      (getConversationState (resolveId convId sid) st).2 := by
  obtain ⟨h1, h2, h3, h4⟩ :
      aspect ≠ "goal" ∧ aspect ≠ "summary" ∧ aspect ≠ "state" ∧
        aspect ≠ "keyPoints" := by
    simpa using ha
  exact ⟨by simp [readResource, renderAspect, h1, h2, h3, h4], rfl⟩

/-- C1 witness: the amended claim at the unknown aspect "fullstate". -/
theorem claim1_witness :
    (readResource (ConvIdParam.single "c1") none "fullstate" []).1 =
      Except.error (McpErr.invalidParams
        ("Unknown conversation aspect requested: " ++ "fullstate")) ∧
    (readResource (ConvIdParam.single "c1") none "fullstate" []).2 =
      (getConversationState (resolveId (ConvIdParam.single "c1") none) []).2 :=
  claim1_amended (ConvIdParam.single "c1") none "fullstate" [] (by decide)

/-- C2 counterexample: resolution does not always produce a non-empty
identity string: an explicit empty-string identifier resolves to the empty
string. -/
theorem claim2_counterexample :
    ¬ (∀ (p : ConvIdParam) (sid : Option String),
        ∃ s : String, resolveId p sid = some s ∧ s ≠ "") := by
  intro hall
  obtain ⟨s, hs, hne⟩ := hall (ConvIdParam.single "") none
  have heq : (some "" : Key) = some s := by
    rw [← hs]
    rfl
  exact hne (Option.some_inj.mp heq).symm

/-- C2 (amended): resolution follows the documented order (it agrees with the
spec-side restatement of that order), and yields exactly one non-empty
identity whenever the candidate it selects is non-empty; an empty explicit
identifier is passed through as the empty identity. -/
theorem claim2_amended (p : ConvIdParam) (sid : Option String)
    (h : nonEmptyCandidates p sid) :
    resolveId p sid = resolveIdSpec p sid ∧
    ∃ s : String, resolveId p sid = some s ∧ s ≠ "" := by
  constructor
  · cases p <;> cases sid <;> rfl
  · cases p with
    | absent =>
      cases sid with
      | none => exact ⟨"default", rfl, by decide⟩
      | some t => exact ⟨t, rfl, h⟩
    | single s => exact ⟨s, rfl, h⟩
    | listOf l =>
      obtain ⟨x, xs, rfl, hx⟩ := h
      exact ⟨x, rfl, hx⟩

/-- C2 witness: the amended claim at the explicit identifier "c1". -/
theorem claim2_witness :
    resolveId (ConvIdParam.single "c1") none =
      resolveIdSpec (ConvIdParam.single "c1") none ∧
    ∃ s : String, resolveId (ConvIdParam.single "c1") none = some s ∧ s ≠ "" :=
  claim2_amended (ConvIdParam.single "c1") none
    (by show ("c1" : String) ≠ ""; decide)

/-- C3: phase transitions: set-goal always yields `exploring`; summarize
always yields `summarizing`; record-key-point never changes the phase;
suggest-next-step yields `defining_goal` when no goal is set regardless of
the prior phase, and with a goal set leaves the phase unchanged except at
`idle`, which it moves to `defining_goal`. -/
theorem claim3 (st : Store) (c sid : Option String) (gd td pt : String)
    (hg : (loadedState c sid st).goal = none ∨
      ∃ g, (loadedState c sid st).goal = some g ∧ g ≠ "")
    (hp : (loadedState c sid st).phase ∈ phases) :
    phaseAfter c sid (set_conversation_goal gd c sid st).2 = some "exploring" ∧
    phaseAfter c sid (summarize_conversation td c sid st).2 = some "summarizing" ∧
    phaseAfter c sid (record_key_point pt c sid st).2 =
      some (loadedState c sid st).phase ∧
    ((loadedState c sid st).goal = none →
      phaseAfter c sid (suggest_next_step c sid st).2 = some "defining_goal") ∧
    ((loadedState c sid st).goal ≠ none →
      phaseAfter c sid (suggest_next_step c sid st).2 =
        some (if (loadedState c sid st).phase = "idle" then "defining_goal"
              else (loadedState c sid st).phase)) := by
  refine ⟨?_, ?_, ?_, ?_, ?_⟩
  · rw [phaseAfter, Lemmas.setGoal_lookup_self]
    rfl
  · rw [phaseAfter, Lemmas.summarize_lookup_self]
    rfl
  · rw [phaseAfter, Lemmas.record_lookup_self]
    rfl
  · intro hnone
    rw [phaseAfter, Lemmas.suggest_lookup_self, Option.map_some']
    show some (suggestPhase (loadedState c sid st)) = some "defining_goal"
    simp [suggestPhase, goalTruthy, hnone]
  · intro hsome
    obtain ⟨g, hg', hne⟩ := hg.resolve_left hsome
    rw [phaseAfter, Lemmas.suggest_lookup_self, Option.map_some']
    show some (suggestPhase (loadedState c sid st)) = _
    have hie : g.isEmpty = false := by
      cases hie0 : g.isEmpty
      · rfl
      · exact absurd ((String.isEmpty_iff g).mp hie0) hne
    have htr : goalTruthy (loadedState c sid st).goal = true := by
      rw [hg']
      simp [goalTruthy, hie]
    simp only [phases, List.mem_cons, List.not_mem_nil, or_false] at hp
    rcases hp with h | h | h | h
    · rw [if_pos h]
      simp [suggestPhase, htr, h]
    · rw [if_neg (by rw [h]; decide)]
      simp [suggestPhase, htr, h]
    · rw [if_neg (by rw [h]; decide)]
      simp [suggestPhase, htr, h]
    · rw [if_neg (by rw [h]; decide)]
      simp [suggestPhase, htr, h]

/-- C3 witness: the transitions at a fresh conversation "c1". -/
theorem claim3_witness :
    phaseAfter (some "c1") none
      (set_conversation_goal "Plan a trip" (some "c1") none []).2 =
        some "exploring" ∧
    phaseAfter (some "c1") none
      (summarize_conversation "some text to summarize" (some "c1") none []).2 =
        some "summarizing" ∧
    phaseAfter (some "c1") none
      (record_key_point "Visit Paris" (some "c1") none []).2 =
        some (loadedState (some "c1") none []).phase ∧
    ((loadedState (some "c1") none []).goal = none →
      phaseAfter (some "c1") none (suggest_next_step (some "c1") none []).2 =
        some "defining_goal") ∧
    ((loadedState (some "c1") none []).goal ≠ none →
      phaseAfter (some "c1") none (suggest_next_step (some "c1") none []).2 =
        some (if (loadedState (some "c1") none []).phase = "idle"
              then "defining_goal" else (loadedState (some "c1") none []).phase)) :=
  claim3 [] (some "c1") none "Plan a trip" "some text to summarize" "Visit Paris"
    (Or.inl rfl) (by decide)

/-- C4 counterexample: at a state holding goal "Plan a trip" in phase `idle`,
the suggestion text does not contain the goal: the default branch returns a
generic prompt. -/
theorem claim4_counterexample :
    (lookupState (some "c1") idleGoalStore).map ConvState.goal =
      some (some "Plan a trip") ∧
    (lookupState (some "c1") idleGoalStore).map ConvState.phase = some "idle" ∧
    strContains (suggest_next_step (some "c1") none idleGoalStore).1
      "Plan a trip" = false := by
  refine ⟨rfl, rfl, ?_⟩
  decide

/-- C4 (amended): on every store reachable by valid requests, whenever the
resolved conversation has a goal set the suggestion text contains the goal
verbatim; such a conversation is never in phase `idle` (the only phase whose
branch omits the goal), so the containment holds in every reachable phase. -/
theorem claim4_amended (ops : List Op) (hv : ValidOps ops)
    (c sid : Option String) (g : String)
    (hg : (loadedState c sid (runOps ops [])).goal = some g) :
    strContains (suggest_next_step c sid (runOps ops [])).1 g = true ∧
    (loadedState c sid (runOps ops [])).phase ≠ "idle" := by
  have hinv := Lemmas.storeInv_reachable hv
  have hgood : GoodState (loadedState c sid (runOps ops [])) :=
    (Lemmas.storeInv_get hinv (toolKey c sid)).2.2
  have hglen : 5 ≤ g.length := by
    rcases hgood.2.2.1 with h0 | ⟨g', hg', hlen⟩
    · rw [hg] at h0
      cases h0
    · rw [hg] at hg'
      rw [Option.some_inj.mp hg'.symm] at hlen
      exact hlen
  have hie : g.isEmpty = false := by
    cases hie0 : g.isEmpty
    · rfl
    · rw [(String.isEmpty_iff g).mp hie0] at hglen
      simp at hglen
  have hph3 : (loadedState c sid (runOps ops [])).phase ∈
      ["defining_goal", "exploring", "summarizing"] :=
    hgood.2.2.2 (by rw [hg]; simp)
  have hfst := (Lemmas.suggest_fst c sid (runOps ops [])).2 g hg hie
  constructor
  · simp only [List.mem_cons, List.not_mem_nil, or_false] at hph3
    rcases hph3 with h | h | h
    · rw [hfst.1 h]
      exact Lemmas.strContains_append _ _ _
    · rw [hfst.2.1 h]
      exact Lemmas.strContains_append _ _ _
    · rw [hfst.2.2.1 h]
      exact Lemmas.strContains_append _ _ _
  · intro hidle
    rw [hidle] at hph3
    simp at hph3

/-- C4 witness: after setting the goal "Plan a trip", the suggestion contains
it verbatim. -/
theorem claim4_witness :
    strContains (suggest_next_step (some "c1") none
      (runOps [Op.setGoal "Plan a trip" (some "c1") none] [])).1
      "Plan a trip" = true ∧
    (loadedState (some "c1") none
      (runOps [Op.setGoal "Plan a trip" (some "c1") none] [])).phase ≠ "idle" :=
  claim4_amended [Op.setGoal "Plan a trip" (some "c1") none]
    (Lemmas.validOps_singleton
      (by decide : (5 : Nat) ≤ ("Plan a trip" : String).length))
    (some "c1") none "Plan a trip" rfl

/-- C5: reachable stores never hold duplicate key points; recording a point
already present returns the distinct already-recorded acknowledgment and
leaves the store untouched; a fresh point is appended and echoed verbatim;
the phase is unchanged in both outcomes, and the two responses differ. -/
theorem claim5 (ops : List Op) (hv : ValidOps ops) (pt : String)
    (c sid : Option String) :
    (∀ k s, lookupState k (runOps ops []) = some s → s.keyPoints.Nodup) ∧
    (pt ∈ (loadedState c sid (runOps ops [])).keyPoints →
      record_key_point pt c sid (runOps ops []) =
        ("That point seems to be already recorded.", runOps ops [])) ∧
    (pt ∉ (loadedState c sid (runOps ops [])).keyPoints →
      (record_key_point pt c sid (runOps ops [])).1 =
        "Noted. Key point recorded: \"" ++ pt ++ "\"" ∧
      lookupState (toolKey c sid) (record_key_point pt c sid (runOps ops [])).2 =
        some { loadedState c sid (runOps ops []) with
          keyPoints := (loadedState c sid (runOps ops [])).keyPoints ++ [pt] }) ∧
    phaseAfter c sid (record_key_point pt c sid (runOps ops [])).2 =
      some (loadedState c sid (runOps ops [])).phase ∧
    ("That point seems to be already recorded." : String) ≠
      "Noted. Key point recorded: \"" ++ pt ++ "\"" := by
  refine ⟨?_, ?_, ?_, ?_, Lemmas.record_msgs_ne pt⟩
  · intro k s h
    exact ((Lemmas.storeInv_reachable hv).2 k s h).2.2.1
  · intro hmem
    have hlk : lookupState (toolKey c sid) (runOps ops []) ≠ none := by
      intro hnone
      rw [loadedState, Lemmas.get_of_none hnone] at hmem
      simp [initState] at hmem
    obtain ⟨s0, hs0⟩ := Option.ne_none_iff_exists'.mp hlk
    rw [loadedState, Lemmas.get_of_some hs0] at hmem
    simp only [record_key_point]
    rw [Lemmas.get_of_some hs0, if_pos hmem]
  · intro hnmem
    have hnmem' : pt ∉ (getConversationState (toolKey c sid)
        (runOps ops [])).1.keyPoints := hnmem
    constructor
    · simp only [record_key_point]
      rw [if_neg hnmem']
    · rw [Lemmas.record_lookup_self, if_neg hnmem]
  · rw [phaseAfter, Lemmas.record_lookup_self, Option.map_some']

/-- C5 witness: recording "Visit Paris" a second time returns the distinct
acknowledgment and leaves the store exactly as it was. -/
theorem claim5_witness :
    record_key_point "Visit Paris" (some "c1") none
        (runOps [Op.recordPoint "Visit Paris" (some "c1") none] []) =
      ("That point seems to be already recorded.",
       runOps [Op.recordPoint "Visit Paris" (some "c1") none] []) :=
  (claim5 [Op.recordPoint "Visit Paris" (some "c1") none]
      (Lemmas.validOps_singleton
        (by decide : (5 : Nat) ≤ ("Visit Paris" : String).length))
      "Visit Paris" (some "c1") none).2.1 (by decide)

/-- C6: for every source of at least 10 characters, the stored summary is the
fixed label followed by the first 150 characters, with the ellipsis appended
exactly when the source exceeds 150 (none at 150 or below), the phase moves
to `summarizing`, and the response is the fixed generic acknowledgment, which
never contains the summary text. -/
theorem claim6 (t : String) (c sid : Option String) (st : Store)
    (ht : 10 ≤ t.length) :
    lookupState (toolKey c sid) (summarize_conversation t c sid st).2 =
      some { loadedState c sid st with summary := some (mockSummary t),
                                       phase := "summarizing" } ∧
    (t.length ≤ 150 → mockSummary t = "Summary based on text provided: " ++ t) ∧
    (150 < t.length → mockSummary t =
      "Summary based on text provided: " ++ String.mk (t.data.take 150) ++ "...") ∧
    (summarize_conversation t c sid st).1 =
      "OK, I\x27ve updated the conversation summary." ∧
    strContains (summarize_conversation t c sid st).1 (mockSummary t) = false :=
  ⟨Lemmas.summarize_lookup_self t c sid st,
   fun h => Lemmas.mockSummary_short h,
   fun h => Lemmas.mockSummary_long h,
   rfl,
   Lemmas.mock_not_in_ack ht⟩

/-- C6 witness: summarizing a ten-character source. -/
theorem claim6_witness :
    lookupState (toolKey (some "c1") none)
        (summarize_conversation "0123456789" (some "c1") none []).2 =
      some { loadedState (some "c1") none [] with
        summary := some (mockSummary "0123456789"), phase := "summarizing" } ∧
    (("0123456789" : String).length ≤ 150 →
      mockSummary "0123456789" =
        "Summary based on text provided: " ++ "0123456789") ∧
    (150 < ("0123456789" : String).length →
      mockSummary "0123456789" =
        "Summary based on text provided: " ++
          String.mk (("0123456789" : String).data.take 150) ++ "...") ∧
    (summarize_conversation "0123456789" (some "c1") none []).1 =
      "OK, I\x27ve updated the conversation summary." ∧
    strContains (summarize_conversation "0123456789" (some "c1") none []).1
      (mockSummary "0123456789") = false :=
  claim6 "0123456789" (some "c1") none [] (by decide)

/-- C8: after any valid request sequence from the empty store, the phase of
every stored conversation is one of the four enumerated values. -/
theorem claim8 (ops : List Op) (hv : ValidOps ops) (k : Key) (s : ConvState)
    (h : lookupState k (runOps ops []) = some s) : s.phase ∈ phases :=
  ((Lemmas.storeInv_reachable hv).2 k s h).2.1

/-- C8 witness: the conversation created by one set-goal request has a legal
phase. -/
theorem claim8_witness :
    ({ id := some "c1", goal := some "Plan a trip", summary := none,
       keyPoints := [], phase := "exploring" } : ConvState).phase ∈ phases :=
  claim8 [Op.setGoal "Plan a trip" (some "c1") none]
    (Lemmas.validOps_singleton
      (by decide : (5 : Nat) ≤ ("Plan a trip" : String).length))
    (some "c1") _ rfl

/-- C7: for a never-seen identity, each of the four valid aspect reads
returns its unset rendering and creates exactly one default entry at phase
`idle`; looking the identity up again returns the same state without a new
entry; a mutation through the tool path is visible through the resource path;
and reachable stores hold at most one entry per identity. -/
theorem claim7 (id : String) (sid : Option String) (st : Store)
    (hfresh : lookupState (some id) st = none) :
    readResource (ConvIdParam.single id) sid "goal" st =
      (Except.ok "No conversation goal has been set yet.",
       st ++ [(some id, initState (some id))]) ∧
    readResource (ConvIdParam.single id) sid "summary" st =
      (Except.ok "No summary is currently available for this conversation.",
       st ++ [(some id, initState (some id))]) ∧
    readResource (ConvIdParam.single id) sid "state" st =
      (Except.ok "The conversation is currently in the \x27idle\x27 phase.",
       st ++ [(some id, initState (some id))]) ∧
    readResource (ConvIdParam.single id) sid "keyPoints" st =
      (Except.ok "No key points have been recorded yet.",
       st ++ [(some id, initState (some id))]) ∧
    getConversationState (some id) (st ++ [(some id, initState (some id))]) =
      (initState (some id), st ++ [(some id, initState (some id))]) ∧
    (∀ g : String,
      lookupState (some id)
          (set_conversation_goal g (some id) sid
            (st ++ [(some id, initState (some id))])).2 =
        some { initState (some id) with goal := some g, phase := "exploring" } ∧
      (readResource (ConvIdParam.single id) sid "goal"
          (set_conversation_goal g (some id) sid
            (st ++ [(some id, initState (some id))])).2).1 =
        Except.ok g) ∧
    (∀ ops, ValidOps ops → ((runOps ops []).map Prod.fst).Nodup) := by
  have hget := Lemmas.get_of_none hfresh
  have hstep : ∀ a, readResource (ConvIdParam.single id) sid a st =
      (renderAspect a (initState (some id)),
       st ++ [(some id, initState (some id))]) := by
    intro a
    simp only [readResource, resolveId]
    rw [hget]
  have hlk2 : lookupState (some id) (st ++ [(some id, initState (some id))]) =
      some (initState (some id)) := by
    rw [Lemmas.lookupState_append_of_none _ hfresh]
    simp [lookupState]
  refine ⟨(hstep "goal").trans rfl, (hstep "summary").trans rfl,
    (hstep "state").trans rfl, (hstep "keyPoints").trans rfl,
    Lemmas.get_of_some hlk2, ?_, fun _ hv => (Lemmas.storeInv_reachable hv).1⟩
  intro g
  have hkey : toolKey (some id) sid = some id := rfl
  have hself := Lemmas.setGoal_lookup_self g (some id) sid
      (st ++ [(some id, initState (some id))])
  rw [hkey] at hself
  have hload : loadedState (some id) sid (st ++ [(some id, initState (some id))]) =
      initState (some id) := by
    simp only [loadedState, hkey, Lemmas.get_of_some hlk2]
  rw [hload] at hself
  refine ⟨hself, ?_⟩
  simp only [readResource, resolveId]
  rw [Lemmas.get_of_some hself]
  rfl

/-- C7 witness: the fresh identity "c1" on the empty store. -/
theorem claim7_witness :
    readResource (ConvIdParam.single "c1") none "goal" [] =
      (Except.ok "No conversation goal has been set yet.",
       [] ++ [(some "c1", initState (some "c1"))]) ∧
    readResource (ConvIdParam.single "c1") none "summary" [] =
      (Except.ok "No summary is currently available for this conversation.",
       [] ++ [(some "c1", initState (some "c1"))]) ∧
    readResource (ConvIdParam.single "c1") none "state" [] =
      (Except.ok "The conversation is currently in the \x27idle\x27 phase.",
       [] ++ [(some "c1", initState (some "c1"))]) ∧
    readResource (ConvIdParam.single "c1") none "keyPoints" [] =
      (Except.ok "No key points have been recorded yet.",
       [] ++ [(some "c1", initState (some "c1"))]) ∧
    getConversationState (some "c1") ([] ++ [(some "c1", initState (some "c1"))]) =
      (initState (some "c1"), [] ++ [(some "c1", initState (some "c1"))]) ∧
    (∀ g : String,
      lookupState (some "c1")
          (set_conversation_goal g (some "c1") none
            ([] ++ [(some "c1", initState (some "c1"))])).2 =
        some { initState (some "c1") with goal := some g, phase := "exploring" } ∧
      (readResource (ConvIdParam.single "c1") none "goal"
          (set_conversation_goal g (some "c1") none
            ([] ++ [(some "c1", initState (some "c1"))])).2).1 =
        Except.ok g) ∧
    (∀ ops, ValidOps ops → ((runOps ops []).map Prod.fst).Nodup) :=
  claim7 "c1" none [] rfl

/-- C9: each operation rewrites only its designated fields of the resolved
conversation (set-goal: goal and phase; summarize: summary and phase; record:
keyPoints only; suggest: phase only), never the id, and every entry under any
other key is left exactly as it was. -/
theorem claim9 (st : Store) (c sid : Option String) (gd td pt : String) :
    lookupState (toolKey c sid) (set_conversation_goal gd c sid st).2 =
      some { loadedState c sid st with goal := some gd, phase := "exploring" } ∧
    lookupState (toolKey c sid) (summarize_conversation td c sid st).2 =
      some { loadedState c sid st with summary := some (mockSummary td),
                                       phase := "summarizing" } ∧
    lookupState (toolKey c sid) (record_key_point pt c sid st).2 =
      some { loadedState c sid st with
        keyPoints := if pt ∈ (loadedState c sid st).keyPoints
                     then (loadedState c sid st).keyPoints
                     else (loadedState c sid st).keyPoints ++ [pt] } ∧
    lookupState (toolKey c sid) (suggest_next_step c sid st).2 =
      some { loadedState c sid st with
        phase := suggestPhase (loadedState c sid st) } ∧
    (∀ k', k' ≠ toolKey c sid →
      lookupState k' (set_conversation_goal gd c sid st).2 = lookupState k' st ∧
      lookupState k' (summarize_conversation td c sid st).2 = lookupState k' st ∧
      lookupState k' (record_key_point pt c sid st).2 = lookupState k' st ∧
      lookupState k' (suggest_next_step c sid st).2 = lookupState k' st) :=
  ⟨Lemmas.setGoal_lookup_self gd c sid st,
   Lemmas.summarize_lookup_self td c sid st,
   Lemmas.record_lookup_self pt c sid st,
   Lemmas.suggest_lookup_self c sid st,
   fun _ h => ⟨Lemmas.setGoal_lookup_other gd c sid st h,
     Lemmas.summarize_lookup_other td c sid st h,
     Lemmas.record_lookup_other pt c sid st h,
     Lemmas.suggest_lookup_other c sid st h⟩⟩

/-- C9 witness: setting a goal for "c1" rewrites exactly that entry and
leaves the (absent) entry of "zz" absent. -/
theorem claim9_witness :
    lookupState (toolKey (some "c1") none)
        (set_conversation_goal "Plan a trip" (some "c1") none []).2 =
      some { loadedState (some "c1") none [] with
        goal := some "Plan a trip", phase := "exploring" } ∧
    lookupState (some "zz")
        (set_conversation_goal "Plan a trip" (some "c1") none []).2 =
      lookupState (some "zz") ([] : Store) := by
  obtain ⟨h1, _, _, _, hframe⟩ :=
    claim9 [] (some "c1") none "Plan a trip" "some text" "a point"
  exact ⟨h1, (hframe (some "zz") (by decide)).1⟩

/-- C10: for every source of at least 10 characters, the stored summary is
the generated one, whose length is the 32-character label plus at most 150
source characters plus 3 for the ellipsis exactly when the source exceeds
150; in particular the length lies between 42 and 185 inclusive. -/
theorem claim10 (t : String) (c sid : Option String) (st : Store)
    (ht : 10 ≤ t.length) :
    (∃ s', lookupState (toolKey c sid) (summarize_conversation t c sid st).2 =
        some s' ∧ s'.summary = some (mockSummary t)) ∧
    ("Summary based on text provided: " : String).length = 32 ∧
    (mockSummary t).length =
      32 + min 150 t.length + (if 150 < t.length then 3 else 0) ∧
    42 ≤ (mockSummary t).length ∧ (mockSummary t).length ≤ 185 := by
  refine ⟨⟨_, Lemmas.summarize_lookup_self t c sid st, rfl⟩,
    Lemmas.label_length, Lemmas.mockSummary_length t, ?_, ?_⟩
  · rcases le_or_lt t.length 150 with h | h
    · rw [Lemmas.mockSummary_length t, if_neg (by omega), min_eq_right h]
      omega
    · rw [Lemmas.mockSummary_length t, if_pos h, min_eq_left (by omega)]
      omega
  · rcases le_or_lt t.length 150 with h | h
    · rw [Lemmas.mockSummary_length t, if_neg (by omega), min_eq_right h]
      omega
    · rw [Lemmas.mockSummary_length t, if_pos h, min_eq_left (by omega)]

/-- C10 witness: the length bounds at a ten-character source. -/
theorem claim10_witness :
    (∃ s', lookupState (toolKey (some "c1") none)
        (summarize_conversation "0123456789" (some "c1") none []).2 = some s' ∧
      s'.summary = some (mockSummary "0123456789")) ∧
    ("Summary based on text provided: " : String).length = 32 ∧
    (mockSummary "0123456789").length =
      32 + min 150 ("0123456789" : String).length +
        (if 150 < ("0123456789" : String).length then 3 else 0) ∧
    42 ≤ (mockSummary "0123456789").length ∧
    (mockSummary "0123456789").length ≤ 185 :=
  claim10 "0123456789" (some "c1") none [] (by decide)

end ConvMgr
